import Mathlib

/-!
Verification of the session-cache / authentication-setup logic of the
Playwright E2E suite (`tests/auth.setup.ts`, `config.ts`, `env.ts`) and of the
condition-poller pattern described in the design document.

The JavaScript runtime primitives the setup code calls (`atob`, `JSON.parse`,
`String.prototype.split`, `String.prototype.includes`) are given executable
models below; the repository's own functions (`isTokenExpired`, the setup
guard, `acquireSession`, `parseEnv`, the auth-file paths) are translated
directly from the source.
-/

/-! ## A model of JSON values and of `JSON.parse`

JSON numbers are modelled as integers: every numeric literal appearing in the
snapshot logic (the `exp` claim, Unix seconds) is an integer, and the claims
under study only concern integer `exp` values. -/

inductive Json where
  | null
  | bool (b : Bool)
  | num (n : Int)
  | str (s : String)
  | arr (elems : List Json)
  | obj (fields : List (String × Json))

/-- Skip JSON whitespace. -/
def skipWs : List Char → List Char
  | [] => []
  | c :: cs => if c = ' ' || c = '\t' || c = '\n' || c = '\r' then skipWs cs else c :: cs

/-- JSON string escape characters. -/
def escChar : Char → Option Char
  | '"' => some '"'
  | '\\' => some '\\'
  | '/' => some '/'
  | 'b' => some (Char.ofNat 8)
  | 'f' => some (Char.ofNat 12)
  | 'n' => some '\n'
  | 'r' => some '\r'
  | 't' => some '\t'
  | _ => none

/-- Parse the body of a JSON string after the opening quote. -/
def parseStringBody (acc : List Char) : List Char → Option (String × List Char)
  | [] => none
  | '"' :: rest => some (String.mk acc.reverse, rest)
  | '\\' :: rest =>
    match rest with
    | [] => none
    | e :: rest2 =>
      match escChar e with
      | some c => parseStringBody (c :: acc) rest2
      | none => none
  | c :: rest => parseStringBody (c :: acc) rest

/-- Decimal digit value of a character, if any. -/
def digitVal (c : Char) : Option Nat :=
  if '0' ≤ c && c ≤ '9' then some (c.toNat - 48) else none

/-- Consume a maximal run of decimal digits, accumulating their value. -/
def parseDigitsAux (acc : Nat) : List Char → Nat × List Char
  | [] => (acc, [])
  | c :: cs =>
    match digitVal c with
    | some d => parseDigitsAux (acc * 10 + d) cs
    | none => (acc, c :: cs)

/-- Parse a JSON integer literal (optional minus sign, then digits). -/
def parseNumLit : List Char → Option (Int × List Char)
  | '-' :: cs =>
    match cs with
    | c :: _ =>
      if (digitVal c).isSome then
        let p := parseDigitsAux 0 cs
        some (-(Int.ofNat p.1), p.2)
      else none
    | [] => none
  | cs =>
    match cs with
    | c :: _ =>
      if (digitVal c).isSome then
        let p := parseDigitsAux 0 cs
        some (Int.ofNat p.1, p.2)
      else none
    | [] => none

mutual

/-- Fuel-indexed recursive-descent JSON value parser. -/
def parseValue : Nat → List Char → Option (Json × List Char)
  | 0, _ => none
  | fuel + 1, cs =>
    match skipWs cs with
    | 'n' :: 'u' :: 'l' :: 'l' :: rest => some (Json.null, rest)
    | 't' :: 'r' :: 'u' :: 'e' :: rest => some (Json.bool true, rest)
    | 'f' :: 'a' :: 'l' :: 's' :: 'e' :: rest => some (Json.bool false, rest)
    | '"' :: rest =>
      match parseStringBody [] rest with
      | some (s, rest2) => some (Json.str s, rest2)
      | none => none
    | '[' :: rest =>
      match skipWs rest with
      | ']' :: rest2 => some (Json.arr [], rest2)
      | cs2 => parseArrBody fuel cs2 []
    | '\x7b' :: rest =>
      match skipWs rest with
      | '\x7d' :: rest2 => some (Json.obj [], rest2)
      | cs2 => parseObjBody fuel cs2 []
    | cs2 =>
      match parseNumLit cs2 with
      | some (n, rest) => some (Json.num n, rest)
      | none => none

/-- Elements of a JSON array (after at least one element is known to follow). -/
def parseArrBody : Nat → List Char → List Json → Option (Json × List Char)
  | 0, _, _ => none
  | fuel + 1, cs, acc =>
    match parseValue fuel cs with
    | none => none
    | some (v, rest) =>
      match skipWs rest with
      | ',' :: rest2 => parseArrBody fuel rest2 (v :: acc)
      | ']' :: rest2 => some (Json.arr (v :: acc).reverse, rest2)
      | _ => none

/-- Members of a JSON object (after at least one member is known to follow). -/
def parseObjBody : Nat → List Char → List (String × Json) → Option (Json × List Char)
  | 0, _, _ => none
  | fuel + 1, cs, acc =>
    match skipWs cs with
    | '"' :: rest =>
      match parseStringBody [] rest with
      | none => none
      | some (k, rest2) =>
        match skipWs rest2 with
        | ':' :: rest3 =>
          match parseValue fuel rest3 with
          | none => none
          | some (v, rest4) =>
            match skipWs rest4 with
            | ',' :: rest5 => parseObjBody fuel rest5 ((k, v) :: acc)
            | '\x7d' :: rest5 => some (Json.obj ((k, v) :: acc).reverse, rest5)
            | _ => none
        | _ => none
    | _ => none

end

/-- Model of `JSON.parse`: parse the whole string as one JSON value
(returns `none` where `JSON.parse` throws a `SyntaxError`). -/
def Json.parse (s : String) : Option Json :=
  match parseValue (s.length + 1) s.data with
  | some (j, rest) => if (skipWs rest).isEmpty then some j else none
  | none => none

/-- Property access `payload.key` on a parsed JSON value: `none` models
`undefined`. `JSON.parse` keeps the last of duplicate keys, hence the
reversed search. -/
def Json.getField : Json → String → Option Json
  | Json.obj fields, key => (fields.reverse.find? (fun f => f.1 == key)).map (fun f => f.2)
  | _, _ => none

/-! ## A model of `atob` (WHATWG forgiving-base64 decode) -/

def isAsciiWhitespace (c : Char) : Bool :=
  c = ' ' || c = '\t' || c = '\n' || c = '\x0c' || c = '\r'

/-- Value of a base64 alphabet character. -/
def b64Val (c : Char) : Option Nat :=
  if 'A' ≤ c && c ≤ 'Z' then some (c.toNat - 65)
  else if 'a' ≤ c && c ≤ 'z' then some (c.toNat - 97 + 26)
  else if '0' ≤ c && c ≤ '9' then some (c.toNat - 48 + 52)
  else if c = '+' then some 62
  else if c = '/' then some 63
  else none

/-- Remove up to two trailing `=` padding characters when the length is a
multiple of four, as forgiving-base64 prescribes. -/
def stripBase64Padding (cs : List Char) : List Char :=
  if cs.length % 4 == 0 then
    match cs.reverse with
    | '=' :: '=' :: rest => rest.reverse
    | '=' :: rest => rest.reverse
    | _ => cs
  else cs

/-- Reassemble 6-bit groups into bytes; a trailing group of one character is
invalid, trailing groups of two or three yield one or two bytes with the
leftover bits discarded. -/
def b64Groups : List Nat → Option (List Nat)
  | [] => some []
  | [_] => none
  | [a, b] => some [a * 4 + b / 16]
  | [a, b, c] => some [a * 4 + b / 16, b % 16 * 16 + c / 4]
  | a :: b :: c :: d :: rest =>
    match b64Groups rest with
    | some tail => some ((a * 4 + b / 16) :: (b % 16 * 16 + c / 4) :: (c % 4 * 64 + d) :: tail)
    | none => none

/-- Model of the JS `atob` builtin: `none` where `atob` throws
`InvalidCharacterError`. The decoded bytes come back as a string of
characters with matching code points (`atob` returns a latin1 string). -/
def atob (s : String) : Option String :=
  let cs := stripBase64Padding (s.data.filter (fun c => !(isAsciiWhitespace c)))
  if cs.length % 4 == 1 then none
  else
    match cs.mapM b64Val with
    | none => none
    | some vals =>
      match b64Groups vals with
      | none => none
      | some bytes => some (String.mk (bytes.map Char.ofNat))

/-! ## Models of `String.prototype.split` (single-character separator) and
`String.prototype.includes` -/

def splitOnCharAux (sep : Char) (acc : List Char) : List Char → List String
  | [] => [String.mk acc.reverse]
  | c :: cs =>
    if c = sep then String.mk acc.reverse :: splitOnCharAux sep [] cs
    else splitOnCharAux sep (c :: acc) cs

/-- Model of `s.split(sep)` for a one-character separator. -/
def jsSplit (sep : Char) (s : String) : List String :=
  splitOnCharAux sep [] s.data

/-- Does `needle` occur at the head of the second list? -/
def startsWithSeq : List Char → List Char → Bool
  | [], _ => true
  | _ :: _, [] => false
  | a :: as, b :: bs => a == b && startsWithSeq as bs

/-- Does `needle` occur anywhere in the second list? -/
def hasSubSeq (needle : List Char) : List Char → Bool
  | [] => needle.isEmpty
  | c :: cs => startsWithSeq needle (c :: cs) || hasSubSeq needle cs

/-- Model of `hay.includes(needle)`. -/
def jsIncludes (hay needle : String) : Bool :=
  hasSubSeq needle.data hay.data

/-! ## The snapshot data model of `tests/auth.setup.ts`

The shape below is the parameter type the source gives `isTokenExpired`:
`{ origins?: Array<{ localStorage?: Array<{ name: string; value: string }> }> }`.
`Option` models the optional (possibly `undefined`) fields. -/

structure StorageEntry where
  name : String
  value : String
deriving Repr, DecidableEq

structure Origin where
  localStorage : Option (List StorageEntry)
deriving Repr, DecidableEq

structure SnapshotData where
  origins : Option (List Origin)
deriving Repr, DecidableEq

/-- The 23-hour freshness threshold of `isTokenExpired`
(`const maxAgeMs = 23 * 60 * 60 * 1000`). -/
def MAX_AGE_MS : Int := 23 * 60 * 60 * 1000

/-- The predicate of `origin.localStorage?.find(...)`:
`item.name.includes('token') || item.name.includes('auth')`. -/
def isTokenLike (entry : StorageEntry) : Bool :=
  jsIncludes entry.name "token" || jsIncludes entry.name "auth"

/-- `origin.localStorage?.find((item) => ...)`: first token-like entry of an
origin, if any. -/
def findTokenEntry (o : Origin) : Option StorageEntry :=
  match o.localStorage with
  | none => none
  | some items => items.find? isTokenLike

/-- The try-block of the loop body:
`JSON.parse(atob(tokenEntry.value.split('.')[1]))`, with the thrown-exception
path modelled as `none`. Indexing `[1]` past the end of the split yields JS
`undefined`, which `atob` coerces to the string `"undefined"` (whose length,
9, makes `atob` throw). -/
def parseJwtPayload (value : String) : Option Json :=
  match atob ((jsSplit '.' value).getD 1 "undefined") with
  | none => none
  | some decoded => Json.parse decoded

/-- Whether one iteration of the `for` loop in `isTokenExpired` returns
`true`, i.e. whether the origin's first token-like entry parses as a JWT whose
payload has a truthy numeric `exp` with `exp * 1000 < Date.now()`. -/
def originHitsExpired (now : Int) (o : Origin) : Bool :=
  match findTokenEntry o with
  | none => false
  | some entry =>
    match parseJwtPayload entry.value with
    | none => false
    | some payload =>
      match payload.getField "exp" with
      | some (Json.num n) => decide (n ≠ 0) && decide (n * 1000 < now)
      | _ => false

/-- `isTokenExpired` (`tests/auth.setup.ts` lines 6-34). `now` models
`Date.now()`; `mtimeMs` models `fs.statSync(authFile.hqAdmin).mtimeMs`.
The early guard `!data?.origins?.length` covers both a missing `origins`
field and an empty list; the loop returns `true` on the first origin whose
token parses with an expired `exp`, and otherwise control falls through to
the file-age check `fileAgeMs > maxAgeMs`. -/
def isTokenExpired (data : SnapshotData) (now mtimeMs : Int) : Bool :=
  match data.origins with
  | none => true
  | some origins =>
    if origins.isEmpty then true
    else if origins.any (originHitsExpired now) then true
    else decide (now - mtimeMs > MAX_AGE_MS)

/-! ## `acquireSession`: the snapshot-read step of the setup
(`tests/auth.setup.ts` lines 37-40)

`const data = isFileExists ? JSON.parse(fs.readFileSync(path, 'utf8')) : null`.
The file system is modelled by the file's state at the path: `none` when no
file exists, `some content` otherwise. `JSON.parse` throwing a `SyntaxError`
on malformed content is modelled by the `Except.error` result: nothing in the
source catches it. -/
def acquireSession (file : Option String) : Except String (Option Json) :=
  match file with
  | none => Except.ok none
  | some content =>
    match Json.parse content with
    | some j => Except.ok (some j)
    | none => Except.error "SyntaxError: JSON parse failure"

/-! ## The setup guard and the interactive login sequence -/

/-- The short-circuit guard of the setup
(`if (data && data.origins?.length > 0 && !isTokenExpired(data)) return`),
which realises the spec's `isUsable` judgment. -/
def isUsable (data : Option SnapshotData) (now mtimeMs : Int) : Bool :=
  match data with
  | none => false
  | some d =>
    (match d.origins with
     | none => false
     | some origins => decide (origins.length > 0)) && !(isTokenExpired d now mtimeMs)

/-- Configuration from `config.ts`. -/
def localDomainHqAdmin : String := "http://hqadmin.localhost:8087"

def appHqAdmin : String := localDomainHqAdmin ++ "/hq-admin"

/-- `authFile.hqAdmin` of `config.ts` (the constant-path variant imported by
`tests/auth.setup.ts`). -/
def configAuthFileHqAdmin : String := "playwright/.auth/hq-admin-user.json"

/-- One browser interaction of the setup body. -/
inductive BrowserAction where
  | goto (url : String)
  | fill (selector value : String)
  | clickButton (name : String)
  | expectVisible (text : String)
  | setLocalStorage (key value : String)
  | saveStorageState (path : String)
deriving Repr, DecidableEq

/-- The interactive login sequence of the setup body
(`tests/auth.setup.ts` lines 46-58), in program order. -/
def loginSequence (email password : String) : List BrowserAction :=
  [BrowserAction.goto (appHqAdmin ++ "/login"),
   BrowserAction.fill "input[name=\"email\"]" email,
   BrowserAction.fill "input[name=\"password\"]" password,
   BrowserAction.clickButton "Login",
   BrowserAction.expectVisible "Stores / Branches",
   BrowserAction.setLocalStorage "hq-admin.campaignAi" "true",
   BrowserAction.saveStorageState configAuthFileHqAdmin]

/-- The browser interactions the setup performs, as a function of the acquired
snapshot and the clock/file state: nothing when the guard short-circuits, the
full login sequence otherwise. -/
def setupTrace (data : Option SnapshotData) (now mtimeMs : Int)
    (email password : String) : List BrowserAction :=
  if isUsable data now mtimeMs then [] else loginSequence email password

/-! ## Environment configuration (`env.ts`) and environment-keyed auth file
paths (the `config.ts` variant with `domainsByEnv`) -/

/-- The `appEnvEnum = z.enum(['local', 'dev', 'staging'])` of `env.ts`. -/
inductive AppEnv where
  | localEnv
  | dev
  | staging
deriving DecidableEq, Repr

/-- The string key of an environment name (the enum's literal values). -/
def AppEnv.toKey : AppEnv → String
  | AppEnv.localEnv => "local"
  | AppEnv.dev => "dev"
  | AppEnv.staging => "staging"

/-- `authFile.hqAdmin` of the environment-keyed config variant:
`playwright/.auth/hq-admin-user-${env.APP_ENV}.json`. -/
def authFileByEnv (e : AppEnv) : String :=
  "playwright/.auth/hq-admin-user-" ++ e.toKey ++ ".json"

/-- The raw process environment the schema is applied to: each variable is
present (`some`) or absent (`none`). -/
structure RawEnv where
  APP_ENV : Option String
  NODE_ENV : Option String
  HQ_ADMIN_AUTH_EMAIL : Option String
  HQ_ADMIN_AUTH_PASSWORD : Option String
  TEST_CAMPAIGN_ID : Option String
deriving Repr, DecidableEq

/-- The validated environment (`z.infer<typeof envSchema>`). -/
structure Env where
  APP_ENV : AppEnv
  NODE_ENV : Option String
  HQ_ADMIN_AUTH_EMAIL : String
  HQ_ADMIN_AUTH_PASSWORD : String
  TEST_CAMPAIGN_ID : Option String
deriving Repr, DecidableEq

/-- `APP_ENV: appEnvEnum.default('local')`: an absent variable takes the
default, a present one must be one of the three enum literals. -/
def checkAppEnv : Option String → Except String AppEnv
  | none => Except.ok AppEnv.localEnv
  | some s =>
    if s = "local" then Except.ok AppEnv.localEnv
    else if s = "dev" then Except.ok AppEnv.dev
    else if s = "staging" then Except.ok AppEnv.staging
    else Except.error "APP_ENV: Invalid enum value. Expected local | dev | staging"

/-- `HQ_ADMIN_AUTH_EMAIL: z.string().email(...)`. The zod email format check
is an external library predicate, taken as the parameter `emailOk`. -/
def checkEmail (emailOk : String → Bool) : Option String → Except String String
  | none => Except.error "HQ_ADMIN_AUTH_EMAIL: Required"
  | some s =>
    if emailOk s then Except.ok s
    else Except.error "HQ_ADMIN_AUTH_EMAIL: HQ_ADMIN_AUTH_EMAIL must be a valid email address"

/-- `HQ_ADMIN_AUTH_PASSWORD: z.string().min(1, ...)`. -/
def checkPassword : Option String → Except String String
  | none => Except.error "HQ_ADMIN_AUTH_PASSWORD: Required"
  | some s =>
    if s.length ≥ 1 then Except.ok s
    else Except.error "HQ_ADMIN_AUTH_PASSWORD: HQ_ADMIN_AUTH_PASSWORD is required"

/-- The issues one field contributes to the failure report. -/
def fieldIssues {α : Type} : Except String α → List String
  | Except.ok _ => []
  | Except.error m => [m]

/-- `parseEnv` of `env.ts`: `envSchema.safeParse` collects the per-field
issues; on success the validated data is returned, on failure the
`path: message` lines are reported and an error is thrown (modelled as
`Except.error` carrying the printed per-field messages). -/
def parseEnv (emailOk : String → Bool) (raw : RawEnv) : Except (List String) Env :=
  match checkAppEnv raw.APP_ENV, checkEmail emailOk raw.HQ_ADMIN_AUTH_EMAIL,
        checkPassword raw.HQ_ADMIN_AUTH_PASSWORD with
  | Except.ok a, Except.ok e, Except.ok p =>
    Except.ok ⟨a, raw.NODE_ENV, e, p, raw.TEST_CAMPAIGN_ID⟩
  | ra, re, rp => Except.error (fieldIssues ra ++ fieldIssues re ++ fieldIssues rp)

/-! ## The condition poller

Modelled from the spec: the polling primitive (`pollUntil`, realised in the
page objects by the automation library's `expect(...).toPass({ timeout })`
retry loop) is library code and is not part of the repository sources; §4.2
of the design document specifies it: the predicate is invoked at a regular
interval until it raises no assertion error or the timeout elapses, and on
timeout it fails with a timeout error carrying the last observed assertion
failure. The predicate is a function of the attempt time; attempts happen at
times `0, interval, 2 * interval, ...`, and the deadline fires at the first
scheduled attempt time past `timeoutMs`. -/

inductive PollResult where
  | ok (elapsed : Nat)
  | timeoutErr (elapsed : Nat) (lastFailure : String)
deriving Repr, DecidableEq

/-- One polling loop: run the predicate at time `t`; on success stop, on an
assertion failure either give up (deadline passed) carrying that failure, or
retry one interval later. `fuel` bounds the recursion and is chosen large
enough by `pollUntil`. -/
def pollUntilAux (predicate : Nat → Except String Unit) (interval timeoutMs : Nat) :
    Nat → Nat → PollResult
  | _, 0 => PollResult.timeoutErr timeoutMs "poll fuel exhausted"
  | t, fuel + 1 =>
    match predicate t with
    | Except.ok _ => PollResult.ok t
    | Except.error e =>
      if timeoutMs < t + interval then PollResult.timeoutErr (t + interval) e
      else pollUntilAux predicate interval timeoutMs (t + interval) fuel

/-- Modelled from the spec: `pollUntil(predicate, timeout)` (§4.2). -/
def pollUntil (predicate : Nat → Except String Unit) (interval timeoutMs : Nat) : PollResult :=
  pollUntilAux predicate interval timeoutMs 0 (timeoutMs + 1)

/-! ## Helper lemmas -/

/-- A concrete snapshot holding a token-like entry whose JWT payload is
`\x7b"exp":200000\x7d` (the middle segment below is its base64 encoding):
the `exp` claim is NOT expired for any `Date.now()` up to `2 * 10^8` ms. -/
def freshTokenSnapshot : SnapshotData :=
  ⟨some [⟨some [⟨"access_token", "h.eyJleHAiOjIwMDAwMH0.s"⟩]⟩]⟩

theorem originHitsExpired_false_of_unparsed (now : Int) (o : Origin)
    (h : (match findTokenEntry o with
          | none => true
          | some e => (parseJwtPayload e.value).isNone) = true) :
    originHitsExpired now o = false := by
  unfold originHitsExpired
  cases hf : findTokenEntry o with
  | none => rfl
  | some e =>
    rw [hf] at h
    have h' : (parseJwtPayload e.value).isNone = true := h
    have hp : parseJwtPayload e.value = none := Option.isNone_iff_eq_none.mp h'
    show (match parseJwtPayload e.value with
          | none => false
          | some payload =>
            match payload.getField "exp" with
            | some (Json.num n) => decide (n ≠ 0) && decide (n * 1000 < now)
            | _ => false) = false
    rw [hp]

theorem originHitsExpired_false_of_empty_store (now : Int) (o : Origin)
    (h : o.localStorage = none ∨ o.localStorage = some []) :
    originHitsExpired now o = false := by
  rcases h with h | h <;> simp [originHitsExpired, findTokenEntry, h]

/-! ## Claims about the usability judgment -/

/-- C1 (counterexample): a snapshot whose only token-like entry carries a
numeric, NON-expired `exp` claim (`exp * 1000 = 2 * 10^8 ≥ Date.now() = 10^8`)
is nonetheless judged unusable when the backing file is older than 23 hours
(`mtimeMs = 0`), contradicting the claim that the judgment "returns true when
the exp claim is not expired". -/
theorem c1_counterexample :
    isTokenLike ⟨"access_token", "h.eyJleHAiOjIwMDAwMH0.s"⟩ = true ∧
    parseJwtPayload "h.eyJleHAiOjIwMDAwMH0.s" = some (Json.obj [("exp", Json.num 200000)]) ∧
    (100000000 : Int) ≤ 200000 * 1000 ∧
    isUsable (some freshTokenSnapshot) 100000000 0 = false :=
  ⟨by decide, rfl, by decide, by decide⟩

/-- C1 (amended): if the first token-like entry of some origin parses as a JWT
whose payload has a truthy numeric `exp` with `exp * 1000 < now`, the
usability judgment returns false; if no origin's scan yields such an expired
hit, the judgment returns true only when, additionally, the origin list is
nonempty and the backing file's age is at most 23 hours. -/
theorem c1_expiry_usability :
    (∀ (snap : SnapshotData) (now mtimeMs : Int) (origins : List Origin) (o : Origin),
      snap.origins = some origins → o ∈ origins → originHitsExpired now o = true →
      isUsable (some snap) now mtimeMs = false) ∧
    (∀ (snap : SnapshotData) (now mtimeMs : Int) (origins : List Origin),
      snap.origins = some origins → origins ≠ [] →
      (∀ o ∈ origins, originHitsExpired now o = false) →
      now - mtimeMs ≤ MAX_AGE_MS →
      isUsable (some snap) now mtimeMs = true) := by
  constructor
  · intro snap now m os o hso hmem hhit
    have hany : os.any (originHitsExpired now) = true := List.any_eq_true.mpr ⟨o, hmem, hhit⟩
    obtain ⟨o?⟩ := snap
    cases hso
    simp [isUsable, isTokenExpired, hany]
  · intro snap now m os hso hne hall hage
    have hany : os.any (originHitsExpired now) = false := by
      rw [List.any_eq_false]
      intro o ho
      simp [hall o ho]
    obtain ⟨o?⟩ := snap
    cases hso
    have hempty : os.isEmpty = false := by
      cases os with
      | nil => exact absurd rfl hne
      | cons a as => rfl
    simp [isUsable, isTokenExpired, hany, hempty, not_lt.mpr hage,
      List.length_pos.mpr hne]

/-- C1 (witness): the amended theorem applied at concrete inputs — an origin
with an expired token (`exp = 50`, `50 * 1000 < now = 100000`) is unusable,
and a fresh file with a no-hit scan is usable. -/
theorem c1_expiry_usability_witness :
    isUsable (some ⟨some [⟨some [⟨"auth_token", "h.eyJleHAiOjUwfQ.s"⟩]⟩]⟩) 100000 0 = false ∧
    isUsable (some ⟨some [⟨some [⟨"session", "v"⟩]⟩]⟩) 1000 0 = true :=
  ⟨c1_expiry_usability.1 _ 100000 0 _ ⟨some [⟨"auth_token", "h.eyJleHAiOjUwfQ.s"⟩]⟩ rfl
      (List.mem_singleton.mpr rfl) (by decide),
   c1_expiry_usability.2 _ 1000 0 _ rfl (by decide)
      (by intro o ho; rw [List.mem_singleton.mp ho]; decide) (by decide)⟩

/-- C3 (counterexample): a snapshot with one origin whose entry store is empty
is judged USABLE when the backing file is fresh (`age = 1000 ms ≤ 23 h`),
contradicting the claim that every snapshot all of whose origins have an
empty entry store is unusable. -/
theorem c3_counterexample :
    isUsable (some ⟨some [⟨some []⟩]⟩) 1000 0 = true ∧
    (1000 : Int) - 0 ≤ MAX_AGE_MS :=
  ⟨by decide, by decide⟩

/-- C3 (amended): a snapshot with zero origins (absent or empty list) is never
usable; but emptiness of the entry stores does not by itself make a snapshot
unusable — a snapshot all of whose origins have an empty (or absent) entry
store is usable exactly when it has at least one origin and the backing
file's age is at most 23 hours. -/
theorem c3_empty_snapshot_usability :
    (∀ (snap : SnapshotData) (now mtimeMs : Int),
      (snap.origins = none ∨ snap.origins = some []) →
      isUsable (some snap) now mtimeMs = false) ∧
    (∀ (snap : SnapshotData) (now mtimeMs : Int) (origins : List Origin),
      snap.origins = some origins →
      (∀ o ∈ origins, o.localStorage = none ∨ o.localStorage = some []) →
      isUsable (some snap) now mtimeMs =
        (decide (origins.length > 0) && decide (now - mtimeMs ≤ MAX_AGE_MS))) := by
  constructor
  · intro snap now m h
    obtain ⟨o?⟩ := snap
    rcases h with h | h <;> cases h <;> simp [isUsable, isTokenExpired]
  · intro snap now m os hso hall
    have hany : os.any (originHitsExpired now) = false := by
      rw [List.any_eq_false]
      intro o ho
      simp [originHitsExpired_false_of_empty_store now o (hall o ho)]
    obtain ⟨o?⟩ := snap
    cases hso
    cases os with
    | nil => simp [isUsable, isTokenExpired]
    | cons a as =>
      have hlen : (a :: as).length > 0 := by simp
      rcases le_or_lt (now - m) MAX_AGE_MS with hc | hc
      · simp [isUsable, isTokenExpired, hany, hlen, hc, not_lt.mpr hc]
      · simp [isUsable, isTokenExpired, hany, hlen, hc, not_le.mpr hc]

/-- C3 (witness): the amended theorem at concrete inputs — a zero-origin
snapshot is unusable, and an all-empty-store snapshot's usability equals the
age check (true at age 1000 ms). -/
theorem c3_empty_snapshot_usability_witness :
    isUsable (some ⟨some []⟩) 5 0 = false ∧
    isUsable (some ⟨some [⟨some []⟩]⟩) 1000 0 =
      (decide (([(⟨some []⟩ : Origin)].length) > 0) && decide ((1000 : Int) - 0 ≤ MAX_AGE_MS)) :=
  ⟨c3_empty_snapshot_usability.1 ⟨some []⟩ 5 0 (Or.inr rfl),
   c3_empty_snapshot_usability.2 ⟨some [⟨some []⟩]⟩ 1000 0 _ rfl
     (by intro o ho; rw [List.mem_singleton.mp ho]; exact Or.inr rfl)⟩

/-- The fallback hypothesis of C4 for one origin: no token-like entry is
found, or the found one does not parse as a JWT. -/
def originTokenUnparsed (o : Origin) : Bool :=
  match findTokenEntry o with
  | none => true
  | some e => (parseJwtPayload e.value).isNone

/-- C4 (counterexample): a snapshot with zero origins has no token-like entry
at all and a backing file well under the 23-hour threshold, yet the usability
judgment returns false — the early `!data?.origins?.length` guard fires before
the age fallback, contradicting the claim as stated for every such snapshot. -/
theorem c4_counterexample :
    isUsable (some ⟨some []⟩) 1000 0 = false ∧
    (1000 : Int) - 0 ≤ MAX_AGE_MS :=
  ⟨by decide, by decide⟩

/-- C4 (amended): for every snapshot with at least one origin in which no
origin's scan finds a token-like entry that parses as a JWT, usability is
decided purely by the age check: usable exactly when the file's age is at
most `23 * 60 * 60 * 1000` ms. -/
theorem c4_age_fallback :
    ∀ (snap : SnapshotData) (now mtimeMs : Int) (origins : List Origin),
      snap.origins = some origins → origins ≠ [] →
      (∀ o ∈ origins, originTokenUnparsed o = true) →
      isUsable (some snap) now mtimeMs = decide (now - mtimeMs ≤ MAX_AGE_MS) := by
  intro snap now m os hso hne hall
  have hany : os.any (originHitsExpired now) = false := by
    rw [List.any_eq_false]
    intro o ho
    simp [originHitsExpired_false_of_unparsed now o (hall o ho)]
  obtain ⟨o?⟩ := snap
  cases hso
  cases os with
  | nil => exact absurd rfl hne
  | cons a as =>
    have hlen : (a :: as).length > 0 := by simp
    rcases le_or_lt (now - m) MAX_AGE_MS with hc | hc
    · simp [isUsable, isTokenExpired, hany, hlen, hc, not_lt.mpr hc]
    · simp [isUsable, isTokenExpired, hany, hlen, hc, not_le.mpr hc]

/-- C4 (witness): the amended theorem at a concrete input — one origin with a
non-JWT token-like entry, fresh file: usable. -/
theorem c4_age_fallback_witness :
    isUsable (some ⟨some [⟨some [⟨"auth", "session-id-abc123"⟩]⟩]⟩) 1000 0 =
      decide ((1000 : Int) - 0 ≤ MAX_AGE_MS) :=
  c4_age_fallback ⟨some [⟨some [⟨"auth", "session-id-abc123"⟩]⟩]⟩ 1000 0 _ rfl
    (by decide) (by intro o ho; rw [List.mem_singleton.mp ho]; decide)

/-- C10: the expiry judgment does not terminate at a valid, non-expired token
entry — whenever the backing file is older than 23 hours, `isTokenExpired`
returns true (and the snapshot is unusable) for EVERY snapshot, regardless of
any token's `exp` value. -/
theorem c10_age_overrides_token :
    ∀ (snap : SnapshotData) (now mtimeMs : Int),
      MAX_AGE_MS < now - mtimeMs →
      isTokenExpired snap now mtimeMs = true ∧ isUsable (some snap) now mtimeMs = false := by
  intro snap now m h
  have hex : isTokenExpired snap now m = true := by
    obtain ⟨o?⟩ := snap
    cases o? with
    | none => rfl
    | some os =>
      by_cases he : os.isEmpty <;> by_cases ha : os.any (originHitsExpired now) <;>
        simp [isTokenExpired, he, ha, h]
  refine ⟨hex, ?_⟩
  simp [isUsable, hex]

/-- C10 (witness): the theorem at a concrete input — the snapshot holds a
token whose `exp` claim is NOT expired (`exp * 1000 = 2 * 10^8 ≥ now = 10^8`),
yet the 10^8 ms file age (> 23 h) makes the judgment expire it. -/
theorem c10_age_overrides_token_witness :
    isTokenExpired freshTokenSnapshot 100000000 0 = true ∧
    isUsable (some freshTokenSnapshot) 100000000 0 = false :=
  c10_age_overrides_token freshTokenSnapshot 100000000 0 (by decide)

/-! ## Claims about `acquireSession` and the setup control flow -/

/-- C2 (counterexample): when the file exists but holds malformed content
(here the single character `\x7b`), `acquireSession` does NOT return `None`
silently — the `JSON.parse` failure propagates as an error (nothing in the
setup catches it), contradicting the claim. -/
theorem c2_counterexample :
    acquireSession (some "\x7b") = Except.error "SyntaxError: JSON parse failure" ∧
    acquireSession (some "\x7b") ≠ Except.ok none :=
  ⟨rfl, fun h => Except.noConfusion h⟩

/-- C2 (amended): `acquireSession` returns `None` when no file exists at the
path; when the file exists but its content is malformed, the `JSON.parse`
error propagates (the setup step fails) instead of degrading to `None`. -/
theorem c2_acquire_session :
    acquireSession none = Except.ok none ∧
    ∀ content : String, Json.parse content = none →
      acquireSession (some content) = Except.error "SyntaxError: JSON parse failure" := by
  refine ⟨rfl, ?_⟩
  intro content h
  simp [acquireSession, h]

/-- C2 (witness): the amended theorem at concrete inputs. -/
theorem c2_acquire_session_witness :
    acquireSession none = Except.ok none ∧
    acquireSession (some "not json") = Except.error "SyntaxError: JSON parse failure" :=
  ⟨c2_acquire_session.1, c2_acquire_session.2 "not json" rfl⟩

/-- C5: the interactive login sequence (navigate, fill credentials, click
Login, write the feature flag, persist the session) executes exactly when the
acquired snapshot is not usable; on a usable snapshot the setup performs no
browser interaction at all. -/
theorem c5_login_iff_not_usable :
    ∀ (data : Option SnapshotData) (now mtimeMs : Int) (email password : String),
      (isUsable data now mtimeMs = true → setupTrace data now mtimeMs email password = []) ∧
      (isUsable data now mtimeMs = false →
        setupTrace data now mtimeMs email password =
          [BrowserAction.goto (appHqAdmin ++ "/login"),
           BrowserAction.fill "input[name=\"email\"]" email,
           BrowserAction.fill "input[name=\"password\"]" password,
           BrowserAction.clickButton "Login",
           BrowserAction.expectVisible "Stores / Branches",
           BrowserAction.setLocalStorage "hq-admin.campaignAi" "true",
           BrowserAction.saveStorageState configAuthFileHqAdmin]) := by
  intro data now m email password
  constructor <;> intro h <;> simp [setupTrace, h, loginSequence]

/-- C5 (witness): at concrete inputs — a usable snapshot yields an empty
trace; a missing snapshot yields the full login sequence. -/
theorem c5_login_iff_not_usable_witness :
    setupTrace (some ⟨some [⟨some []⟩]⟩) 0 0 "user@example.com" "pw" = [] ∧
    setupTrace none 0 0 "user@example.com" "pw" =
      [BrowserAction.goto (appHqAdmin ++ "/login"),
       BrowserAction.fill "input[name=\"email\"]" "user@example.com",
       BrowserAction.fill "input[name=\"password\"]" "pw",
       BrowserAction.clickButton "Login",
       BrowserAction.expectVisible "Stores / Branches",
       BrowserAction.setLocalStorage "hq-admin.campaignAi" "true",
       BrowserAction.saveStorageState configAuthFileHqAdmin] :=
  ⟨(c5_login_iff_not_usable (some ⟨some [⟨some []⟩]⟩) 0 0 "user@example.com" "pw").1 (by decide),
   (c5_login_iff_not_usable none 0 0 "user@example.com" "pw").2 rfl⟩

/-- C9: `acquireSession` is deterministic in the file state — two invocations
against the same file state (same existence, same bytes) return equal
results. -/
theorem c9_acquire_idempotent (file1 file2 : Option String) (h : file1 = file2) :
    acquireSession file1 = acquireSession file2 := by rw [h]

/-- C9 (witness): the theorem at a concrete file state. -/
theorem c9_acquire_idempotent_witness :
    acquireSession (some "null") = acquireSession (some "null") :=
  c9_acquire_idempotent (some "null") (some "null") rfl

/-! ## The condition poller claim -/

theorem pollUntilAux_never (predicate : Nat → Except String Unit) (interval timeoutMs : Nat)
    (hN : ∀ t, ∃ e, predicate t = Except.error e) :
    ∀ (fuel t : Nat), 0 < interval → t ≤ timeoutMs → timeoutMs - t < fuel →
      ∃ tL e, predicate tL = Except.error e ∧ tL ≤ timeoutMs ∧ timeoutMs < tL + interval ∧
        pollUntilAux predicate interval timeoutMs t fuel =
          PollResult.timeoutErr (tL + interval) e := by
  intro fuel
  induction fuel with
  | zero => intro t _ ht hf; omega
  | succ f ih =>
    intro t hI ht hf
    obtain ⟨e, he⟩ := hN t
    by_cases hd : timeoutMs < t + interval
    · exact ⟨t, e, he, ht, hd, by simp [pollUntilAux, he, hd]⟩
    · push_neg at hd
      obtain ⟨tL, e', h1, h2, h3, h4⟩ := ih (t + interval) hI hd (by omega)
      exact ⟨tL, e', h1, h2, h3, by simpa [pollUntilAux, he, not_lt.mpr hd] using h4⟩

/-- C6: a poll whose predicate never succeeds fails with a timeout error that
carries the last observed assertion failure — the failure observed at the
last attempt time `tL` within the deadline — and it fails at elapsed time
`tL + interval`, which exceeds the configured timeout by at most one polling
interval. -/
theorem c6_poll_timeout :
    ∀ (predicate : Nat → Except String Unit) (interval timeoutMs : Nat),
      0 < interval →
      (∀ t, ∃ e, predicate t = Except.error e) →
      ∃ tL e, predicate tL = Except.error e ∧
        tL ≤ timeoutMs ∧ timeoutMs < tL + interval ∧
        pollUntil predicate interval timeoutMs =
          PollResult.timeoutErr (tL + interval) e := by
  intro predicate interval timeoutMs hI hN
  exact pollUntilAux_never predicate interval timeoutMs hN (timeoutMs + 1) 0 hI
    (Nat.zero_le _) (by omega)

/-- C6 (witness): a predicate that always fails with the same assertion
message, polled every 100 ms against a 250 ms timeout. -/
theorem c6_poll_timeout_witness :
    ∃ tL e,
      (fun _ : Nat => (Except.error "expected isClickable to be true" : Except String Unit)) tL =
        Except.error e ∧
      tL ≤ 250 ∧ 250 < tL + 100 ∧
      pollUntil (fun _ : Nat => (Except.error "expected isClickable to be true" : Except String Unit))
          100 250 =
        PollResult.timeoutErr (tL + 100) e :=
  c6_poll_timeout _ 100 250 (by decide)
    (fun _ => ⟨"expected isClickable to be true", rfl⟩)

/-! ## Configuration claims -/

/-- C7: the environment-keyed snapshot path is injective in the environment
name — distinct environments never share an auth file. -/
theorem c7_auth_file_distinct :
    ∀ e1 e2 : AppEnv, e1 ≠ e2 → authFileByEnv e1 ≠ authFileByEnv e2 := by
  intro e1 e2 h
  cases e1 <;> cases e2 <;> first
    | exact absurd rfl h
    | decide

/-- C7 (witness): the local and dev environments get distinct paths. -/
theorem c7_auth_file_distinct_witness :
    authFileByEnv AppEnv.localEnv ≠ authFileByEnv AppEnv.dev :=
  c7_auth_file_distinct AppEnv.localEnv AppEnv.dev (by decide)

/-! ## Environment validation claim -/

theorem checkAppEnv_ok_iff (o : Option String) :
    (∃ a, checkAppEnv o = Except.ok a) ↔
      (o = none ∨ o = some "local" ∨ o = some "dev" ∨ o = some "staging") := by
  cases o with
  | none => simp [checkAppEnv]
  | some s =>
    by_cases h1 : s = "local"
    · subst h1; simp [checkAppEnv]
    · by_cases h2 : s = "dev"
      · subst h2; simp [checkAppEnv]
      · by_cases h3 : s = "staging"
        · subst h3; simp [checkAppEnv]
        · simp [checkAppEnv, h1, h2, h3]

theorem checkEmail_ok_iff (emailOk : String → Bool) (o : Option String) :
    (∃ s, checkEmail emailOk o = Except.ok s) ↔
      (∃ s, o = some s ∧ emailOk s = true) := by
  cases o with
  | none => simp [checkEmail]
  | some s => by_cases h : emailOk s <;> simp [checkEmail, h]

theorem checkPassword_ok_iff (o : Option String) :
    (∃ s, checkPassword o = Except.ok s) ↔ (∃ s, o = some s ∧ s ≠ "") := by
  cases o with
  | none => simp [checkPassword]
  | some s =>
    by_cases h : s.length ≥ 1
    · have hne : s ≠ "" := by
        intro hs
        subst hs
        simp [String.length] at h
      simp [checkPassword, h, hne]
    · have hz : s = "" := by
        cases s with
        | mk data =>
          cases data with
          | nil => rfl
          | cons c cs => simp [String.length] at h
      subst hz
      simp [checkPassword]

theorem parseEnv_ok_iff (emailOk : String → Bool) (raw : RawEnv) :
    (∃ v, parseEnv emailOk raw = Except.ok v) ↔
      ((∃ a, checkAppEnv raw.APP_ENV = Except.ok a) ∧
       (∃ s, checkEmail emailOk raw.HQ_ADMIN_AUTH_EMAIL = Except.ok s) ∧
       (∃ s, checkPassword raw.HQ_ADMIN_AUTH_PASSWORD = Except.ok s)) := by
  cases ha : checkAppEnv raw.APP_ENV <;>
    cases he : checkEmail emailOk raw.HQ_ADMIN_AUTH_EMAIL <;>
    cases hp : checkPassword raw.HQ_ADMIN_AUTH_PASSWORD <;>
    simp [parseEnv, ha, he, hp]

theorem parseEnv_error_msgs (emailOk : String → Bool) (raw : RawEnv) (msgs : List String)
    (h : parseEnv emailOk raw = Except.error msgs) : msgs ≠ [] := by
  revert h
  cases ha : checkAppEnv raw.APP_ENV <;>
    cases he : checkEmail emailOk raw.HQ_ADMIN_AUTH_EMAIL <;>
    cases hp : checkPassword raw.HQ_ADMIN_AUTH_PASSWORD <;>
    simp [parseEnv, ha, he, hp, fieldIssues] <;>
    (intro h; subst h; simp)

/-- C8: environment validation succeeds and returns validated configuration
precisely when `HQ_ADMIN_AUTH_EMAIL` is present and passes the email format
check, `HQ_ADMIN_AUTH_PASSWORD` is present and non-empty, and `APP_ENV`, when
set, is one of the allowed values; on any failure the thrown error carries a
non-empty list of per-field messages. -/
theorem c8_parse_env :
    ∀ (emailOk : String → Bool) (raw : RawEnv),
      ((∃ v, parseEnv emailOk raw = Except.ok v) ↔
        ((∃ s, raw.HQ_ADMIN_AUTH_EMAIL = some s ∧ emailOk s = true) ∧
         (∃ s, raw.HQ_ADMIN_AUTH_PASSWORD = some s ∧ s ≠ "") ∧
         (raw.APP_ENV = none ∨ raw.APP_ENV = some "local" ∨ raw.APP_ENV = some "dev" ∨
          raw.APP_ENV = some "staging"))) ∧
      (∀ msgs, parseEnv emailOk raw = Except.error msgs → msgs ≠ []) := by
  intro emailOk raw
  refine ⟨?_, fun msgs h => parseEnv_error_msgs emailOk raw msgs h⟩
  rw [parseEnv_ok_iff, checkAppEnv_ok_iff, checkEmail_ok_iff, checkPassword_ok_iff]
  tauto

/-- C8 (witness): the iff applied at a concrete, valid raw environment. -/
theorem c8_parse_env_witness :
    ∃ v, parseEnv (fun s => s == "qa@example.com")
        ⟨none, none, some "qa@example.com", some "secret", none⟩ = Except.ok v :=
  ((c8_parse_env (fun s => s == "qa@example.com")
      ⟨none, none, some "qa@example.com", some "secret", none⟩).1).mpr
    ⟨⟨"qa@example.com", rfl, by decide⟩, ⟨"secret", rfl, by decide⟩, Or.inl rfl⟩
